import Mathlib

/-!
Shallow embedding of the validation-with-fallback subsystem of the
microservices repository (orders service, users service, shared retry
helper), together with proofs of the specification's testable properties.

Conventions:
* JavaScript `Map` objects and the Prisma row store are embedded as
  insertion-ordered association lists (`KvMap`), with `set` as the
  unconditional upsert that JS `Map.set` performs.
* Asynchronous fallible operations are embedded as functions from the
  invocation index to `Except`: invocation `i` of `fn` yields `fn i`.
* The jitter source `Math.random() * 1000` is embedded as an oracle
  `rand : Nat -> Rat` giving the sampled jitter (in ms) of each failed
  attempt; its range constraint is carried as a hypothesis where needed.
* Durations are rationals (JS numbers on the values occurring here).
-/

/-- Insertion-ordered string-keyed map, the embedding of a JS `Map`
and of a Prisma table keyed by `id`. -/
abbrev KvMap (α : Type) := List (String × α)

/-- Lookup, as JS `Map.get` / Prisma `findUnique`. -/
def kvGet {α : Type} : KvMap α → String → Option α
  | [], _ => none
  | (k', v) :: rest, k => if k' = k then some v else kvGet rest k

/-- Unconditional upsert, as JS `Map.set`: replace in place if the key is
present, otherwise append. -/
def kvSet {α : Type} : KvMap α → String → α → KvMap α
  | [], k, v => [(k, v)]
  | (k', v') :: rest, k, v =>
      if k' = k then (k, v) :: rest else (k', v') :: kvSet rest k v

/-- Membership, as JS `Map.has`. -/
def kvHas {α : Type} (s : KvMap α) (k : String) : Bool :=
  (kvGet s k).isSome

theorem kvGet_set_self {α : Type} (s : KvMap α) (k : String) (v : α) :
    kvGet (kvSet s k v) k = some v := by
  induction s with
  | nil => simp [kvSet, kvGet]
  | cons hd tl ih =>
      obtain ⟨k', v'⟩ := hd
      by_cases h : k' = k
      · simp [kvSet, kvGet, h]
      · simp [kvSet, kvGet, h, ih]

theorem kvGet_set_ne {α : Type} (s : KvMap α) (k k' : String) (v : α)
    (h : k ≠ k') : kvGet (kvSet s k v) k' = kvGet s k' := by
  induction s with
  | nil => simp [kvSet, kvGet, h]
  | cons hd tl ih =>
      obtain ⟨k₀, v₀⟩ := hd
      by_cases h₀ : k₀ = k
      · subst h₀
        simp [kvSet, kvGet, h]
      · by_cases h₁ : k₀ = k'
        · subst h₁
          simp [kvSet, kvGet, h₀, Ne.symm h]
        · simp [kvSet, kvGet, h₀, h₁, ih]

theorem kvSet_set_same {α : Type} (s : KvMap α) (k : String) (v w : α) :
    kvSet (kvSet s k v) k w = kvSet s k w := by
  induction s with
  | nil => simp [kvSet]
  | cons hd tl ih =>
      obtain ⟨k', v'⟩ := hd
      by_cases h : k' = k
      · simp [kvSet, h]
      · simp [kvSet, h, ih]

/-- Result of `retryWithBackoff`: the JS function either returns the result
of a successful attempt, rethrows the error of the final failed attempt, or
(when the `while` loop body never runs, i.e. `retries = 0`) falls off the
loop and returns `undefined`, embedded as `noAttempt`. -/
inductive RetryResult (α ε : Type) where
  | success : α → RetryResult α ε
  | failure : ε → RetryResult α ε
  | noAttempt : RetryResult α ε
deriving DecidableEq, Repr

/-- Loop body of `retryWithBackoff` (src utils): `rem` is the number of
loop iterations still allowed (`retries - attempt + 1`), `callIdx` the
0-based index of the next invocation of `fn`, `delay` the current backoff
delay. Returns the overall result, the number of invocations of `fn`
performed, and the list of waits inserted (each `delay + jitter`).
`rem = 0` inside corresponds to the JS guard `attempt === retries`
(final attempt: rethrow). -/
def retryAux {α ε : Type} (fn : Nat → Except ε α) (rand : Nat → ℚ) :
    Nat → Nat → ℚ → RetryResult α ε × Nat × List ℚ
  | 0, _, _ => (RetryResult.noAttempt, 0, [])
  | rem + 1, callIdx, delay =>
      match fn callIdx with
      | Except.ok v => (RetryResult.success v, 1, [])
      | Except.error e =>
          if rem = 0 then
            (RetryResult.failure e, 1, [])
          else
            let rest := retryAux fn rand rem (callIdx + 1) (delay * 2)
            (rest.1, rest.2.1 + 1, (delay + rand callIdx) :: rest.2.2)

/-- `retryWithBackoff(fn, retries, initialDelay)` from the shared utils
module: attempts are numbered 1..retries, the first wait is
`initialDelay + jitter`, and the delay doubles after every failed attempt. -/
def retryWithBackoff {α ε : Type} (fn : Nat → Except ε α) (rand : Nat → ℚ)
    (retries : Nat) (initialDelay : ℚ) : RetryResult α ε × Nat × List ℚ :=
  retryAux fn rand retries 0 initialDelay

theorem retryAux_succ_ok {α ε : Type} (fn : Nat → Except ε α) (rand : Nat → ℚ)
    (rem callIdx : Nat) (delay : ℚ) (v : α) (hfn : fn callIdx = Except.ok v) :
    retryAux fn rand (rem + 1) callIdx delay = (RetryResult.success v, 1, []) := by
  simp [retryAux, hfn]

theorem retryAux_one_err {α ε : Type} (fn : Nat → Except ε α) (rand : Nat → ℚ)
    (callIdx : Nat) (delay : ℚ) (e : ε) (hfn : fn callIdx = Except.error e) :
    retryAux fn rand 1 callIdx delay = (RetryResult.failure e, 1, []) := by
  simp [retryAux, hfn]

theorem retryAux_succ_err {α ε : Type} (fn : Nat → Except ε α) (rand : Nat → ℚ)
    (rem callIdx : Nat) (delay : ℚ) (e : ε) (hfn : fn callIdx = Except.error e)
    (hrem : rem ≠ 0) :
    retryAux fn rand (rem + 1) callIdx delay =
      ((retryAux fn rand rem (callIdx + 1) (delay * 2)).1,
       (retryAux fn rand rem (callIdx + 1) (delay * 2)).2.1 + 1,
       (delay + rand callIdx) :: (retryAux fn rand rem (callIdx + 1) (delay * 2)).2.2) := by
  simp [retryAux, hfn, hrem]

theorem retryAux_all_fail {α ε : Type} (errf : Nat → ε) (rand : Nat → ℚ) :
    ∀ (rem callIdx : Nat) (delay : ℚ), 1 ≤ rem →
      (retryAux (fun i => (Except.error (errf i) : Except ε α)) rand rem callIdx delay).1
          = RetryResult.failure (errf (callIdx + (rem - 1))) ∧
      (retryAux (fun i => (Except.error (errf i) : Except ε α)) rand rem callIdx delay).2.1
          = rem := by
  intro rem
  induction rem with
  | zero => intro callIdx delay h; omega
  | succ r ih =>
      intro callIdx delay _
      by_cases hr : r = 0
      · subst hr
        rw [retryAux_one_err _ rand callIdx delay (errf callIdx) rfl]
        simp
      · have h1 : 1 ≤ r := Nat.one_le_iff_ne_zero.mpr hr
        have ihr := ih (callIdx + 1) (delay * 2) h1
        rw [retryAux_succ_err _ rand r callIdx delay (errf callIdx) rfl hr]
        have harg : callIdx + 1 + (r - 1) = callIdx + (r + 1 - 1) := by omega
        refine ⟨?_, ?_⟩
        · rw [show ((retryAux (fun i => (Except.error (errf i) : Except ε α)) rand r
              (callIdx + 1) (delay * 2)).1,
              (retryAux (fun i => (Except.error (errf i) : Except ε α)) rand r
              (callIdx + 1) (delay * 2)).2.1 + 1,
              (delay + rand callIdx) :: (retryAux (fun i =>
              (Except.error (errf i) : Except ε α)) rand r
              (callIdx + 1) (delay * 2)).2.2).1
              = (retryAux (fun i => (Except.error (errf i) : Except ε α)) rand r
              (callIdx + 1) (delay * 2)).1 from rfl]
          rw [ihr.1, harg]
        · rw [show ((retryAux (fun i => (Except.error (errf i) : Except ε α)) rand r
              (callIdx + 1) (delay * 2)).1,
              (retryAux (fun i => (Except.error (errf i) : Except ε α)) rand r
              (callIdx + 1) (delay * 2)).2.1 + 1,
              (delay + rand callIdx) :: (retryAux (fun i =>
              (Except.error (errf i) : Except ε α)) rand r
              (callIdx + 1) (delay * 2)).2.2).2.1
              = (retryAux (fun i => (Except.error (errf i) : Except ε α)) rand r
              (callIdx + 1) (delay * 2)).2.1 + 1 from rfl]
          rw [ihr.2]

theorem retryAux_waits_getD {α ε : Type} (fn : Nat → Except ε α) (rand : Nat → ℚ) :
    ∀ (rem callIdx : Nat) (delay : ℚ) (k : Nat),
      k < (retryAux fn rand rem callIdx delay).2.2.length →
      (retryAux fn rand rem callIdx delay).2.2.getD k 0
          = delay * 2 ^ k + rand (callIdx + k) := by
  intro rem
  induction rem with
  | zero => intro callIdx delay k hk; simp [retryAux] at hk
  | succ r ih =>
      intro callIdx delay k hk
      cases hfn : fn callIdx with
      | ok v =>
          rw [retryAux_succ_ok fn rand r callIdx delay v hfn] at hk
          simp at hk
      | error e =>
          by_cases hr : r = 0
          · subst hr
            rw [retryAux_one_err fn rand callIdx delay e hfn] at hk
            simp at hk
          · rw [retryAux_succ_err fn rand r callIdx delay e hfn hr] at hk ⊢
            rcases k with _ | k
            · simp
            · simp only [List.getD_cons_succ]
              have hk' : k < (retryAux fn rand r (callIdx + 1) (delay * 2)).2.2.length := by
                simpa using Nat.lt_of_succ_lt_succ hk
              rw [ih (callIdx + 1) (delay * 2) k hk']
              have harg : callIdx + 1 + k = callIdx + (k + 1) := by omega
              rw [harg]
              ring_nf

theorem retryAux_failure_calls {α ε : Type} (fn : Nat → Except ε α) (rand : Nat → ℚ)
    (e : ε) :
    ∀ (rem callIdx : Nat) (delay : ℚ),
      (retryAux fn rand rem callIdx delay).1 = RetryResult.failure e →
      (retryAux fn rand rem callIdx delay).2.1 = rem := by
  intro rem
  induction rem with
  | zero => intro callIdx delay h; simp [retryAux] at h
  | succ r ih =>
      intro callIdx delay h
      cases hfn : fn callIdx with
      | ok v =>
          rw [retryAux_succ_ok fn rand r callIdx delay v hfn] at h
          simp at h
      | error e' =>
          by_cases hr : r = 0
          · subst hr
            rw [retryAux_one_err fn rand callIdx delay e' hfn]
          · rw [retryAux_succ_err fn rand r callIdx delay e' hfn hr] at h ⊢
            rw [ih (callIdx + 1) (delay * 2) h]

/-- C4: for every policy with `maxAttempts = N ≥ 1` and every operation that
fails on every invocation, `retryWithBackoff` invokes the operation exactly
N times and then raises exactly the failure produced by the N-th (last)
attempt, unwrapped (invocations are 0-indexed here, so the N-th attempt's
failure is `errf (N - 1)`). -/
theorem retry_exhaustion_invokes_n_and_rethrows_last {α ε : Type}
    (errf : Nat → ε) (rand : Nat → ℚ) (n : Nat) (base : ℚ) (hn : 1 ≤ n) :
    (retryWithBackoff (fun i => (Except.error (errf i) : Except ε α)) rand n base).1
        = RetryResult.failure (errf (n - 1)) ∧
    (retryWithBackoff (fun i => (Except.error (errf i) : Except ε α)) rand n base).2.1
        = n := by
  have := retryAux_all_fail (α := α) errf rand n 0 base hn
  simpa [retryWithBackoff] using this

theorem retry_exhaustion_invokes_n_and_rethrows_last_witness :
    1 ≤ 3 ∧
    ((retryWithBackoff (fun i => (Except.error i : Except Nat Nat)) (fun _ => 7) 3 500).1
        = RetryResult.failure 2 ∧
     (retryWithBackoff (fun i => (Except.error i : Except Nat Nat)) (fun _ => 7) 3 500).2.1
        = 3) :=
  ⟨by norm_num,
   retry_exhaustion_invokes_n_and_rethrows_last (fun i => i) (fun _ => 7) 3 500 (by norm_num)⟩

/-- C5: for every policy (any `baseDelay`, any bound `jmax` on the jitter
samples drawn by the backoff loop — the source draws them uniformly from
`[0, 1000)` via `Math.random() * 1000`), the wait inserted after the k-th
failed attempt (0-indexed `k` here, so attempt `k+1` of the spec) is at
least `baseDelay * 2^k` and strictly below `baseDelay * 2^k + jmax`. -/
theorem retry_wait_bounds {α ε : Type} (fn : Nat → Except ε α) (rand : Nat → ℚ)
    (retries : Nat) (base jmax : ℚ)
    (hr : ∀ i, 0 ≤ rand i ∧ rand i < jmax) :
    ∀ k, k < (retryWithBackoff fn rand retries base).2.2.length →
      base * 2 ^ k ≤ (retryWithBackoff fn rand retries base).2.2.getD k 0 ∧
      (retryWithBackoff fn rand retries base).2.2.getD k 0 < base * 2 ^ k + jmax := by
  intro k hk
  have hval := retryAux_waits_getD fn rand retries 0 base k hk
  rw [retryWithBackoff] at hk ⊢
  rw [hval]
  have h1 := (hr (0 + k)).1
  have h2 := (hr (0 + k)).2
  constructor
  · linarith
  · linarith

theorem retry_wait_bounds_witness :
    (∀ i : Nat, (0 : ℚ) ≤ (fun _ : Nat => (7 : ℚ)) i ∧ (fun _ : Nat => (7 : ℚ)) i < 1000) ∧
    (0 < (retryWithBackoff (fun i => (Except.error i : Except Nat Nat)) (fun _ => 7) 3 500).2.2.length) ∧
    ((500 : ℚ) * 2 ^ 0 ≤ (retryWithBackoff (fun i => (Except.error i : Except Nat Nat)) (fun _ => 7) 3 500).2.2.getD 0 0 ∧
     (retryWithBackoff (fun i => (Except.error i : Except Nat Nat)) (fun _ => 7) 3 500).2.2.getD 0 0 < 500 * 2 ^ 0 + 1000) :=
  ⟨fun _ => ⟨by norm_num, by norm_num⟩,
   by simp [retryWithBackoff, retryAux],
   retry_wait_bounds (fun i => (Except.error i : Except Nat Nat)) (fun _ => 7) 3 500 1000
     (fun _ => ⟨by norm_num, by norm_num⟩) 0 (by simp [retryWithBackoff, retryAux])⟩

/-- C10: calling `retryWithBackoff` with `retries = 0` never enters the
`while` loop, so the operation is never invoked and the call returns
normally with the JS value `undefined` (embedded as `noAttempt`) rather
than raising. -/
theorem retry_zero_retries_no_invocation {α ε : Type} (fn : Nat → Except ε α)
    (rand : Nat → ℚ) (base : ℚ) :
    retryWithBackoff fn rand 0 base = (RetryResult.noAttempt, 0, []) := by
  rfl

/-- Payload of a consumed user lifecycle event: the JSON-parsed snapshot,
with its `id` field and the remaining public fields. -/
structure UserData where
  id : String
  attrs : List (String × String)
deriving DecidableEq, Repr

/-- A row of the orders table as built by the POST handler
(`prisma.order.create`): `items` is stored as a JSON string. -/
structure Order where
  id : String
  userId : String
  total : ℚ
  status : String
  itemsJson : String
  createdAt : String
deriving DecidableEq, Repr

/-- An error raised by a Prisma call; `code` is its optional `code` field
(e.g. `"P2002"`, `"P2025"`). -/
structure PrismaError where
  code : Option String
deriving DecidableEq, Repr

/-- Outcome of one `fetch` with timeout: either the remote service answered
with some HTTP status, or the fetch raised (network error / abort on
timeout). -/
inductive FetchOutcome where
  | response (status : Nat)
  | netError (msg : String)
deriving DecidableEq, Repr

/-- The error channel of one validation attempt: either the fetch itself
raised, or the handler forced an error on a 502/503/504 status to trigger
the retry. -/
inductive VErr where
  | network (msg : String)
  | unavailable (status : Nat)
deriving DecidableEq, Repr

/-- `resp.ok` of the fetch API: status in the range 200–299. -/
def statusOk (s : Nat) : Bool :=
  decide (200 ≤ s ∧ s ≤ 299)

/-- `validateUserHttp` from the orders service POST handler: a network or
timeout error propagates as a raised error; a non-ok response with status
503, 504 or 502 is turned into a raised error to trigger the retry; every
other response (200 OK as well as 404 Not Found and any other status,
including 500) is returned as-is. -/
def validateUserHttp (o : FetchOutcome) : Except VErr Nat :=
  match o with
  | FetchOutcome.netError m => Except.error (VErr.network m)
  | FetchOutcome.response s =>
      if statusOk s = false ∧ (s = 503 ∨ s = 504 ∨ s = 502) then
        Except.error (VErr.unavailable s)
      else
        Except.ok s

/-- Observable result of the validation-and-creation phase of `POST /` on
the orders service: the HTTP status sent, and the number of outbound
`fetch` calls made to the users service. -/
structure PostResult where
  httpStatus : Nat
  fetchCalls : Nat
deriving DecidableEq, Repr

/-- Decision tail of the POST handler given the outcome of the retried
validation call: a definitive non-ok response is rejected with 400; a
raised (exhausted) failure falls back to the user cache, answering 503 when
the user is absent; otherwise the order is created (201 on Prisma success,
500 on Prisma failure). `noAttempt` (an `undefined` result, impossible with
the policy of 3 attempts) would raise a TypeError on `resp.ok` inside the
`try`, which the `catch` treats like an exhausted retry. -/
def postDecision (cache : KvMap UserData) (userId : String)
    (db : Except PrismaError Order) (r : RetryResult Nat VErr) (calls : Nat) :
    PostResult :=
  let created : PostResult :=
    match db with
    | Except.ok _ => PostResult.mk 201 calls
    | Except.error _ => PostResult.mk 500 calls
  match r with
  | RetryResult.success s =>
      if statusOk s = false then PostResult.mk 400 calls else created
  | RetryResult.failure _ =>
      if kvHas cache userId = false then PostResult.mk 503 calls else created
  | RetryResult.noAttempt =>
      if kvHas cache userId = false then PostResult.mk 503 calls else created

/-- The validation-and-creation phase of `POST /` on the orders service for
a well-formed body: run `validateUserHttp` under
`retryWithBackoff(·, 3, 500)`, then decide as `postDecision`. `fetches i`
is the outcome of the i-th outbound call, `db` the result of
`prisma.order.create`. -/
def postOrder (fetches : Nat → FetchOutcome) (rand : Nat → ℚ)
    (cache : KvMap UserData) (userId : String)
    (db : Except PrismaError Order) : PostResult :=
  postDecision cache userId db
    (retryWithBackoff (fun i => validateUserHttp (fetches i)) rand 3 500).1
    (retryWithBackoff (fun i => validateUserHttp (fetches i)) rand 3 500).2.1

theorem retryAux_fail_prefix {α ε : Type} (fn : Nat → Except ε α) (rand : Nat → ℚ) :
    ∀ (rem callIdx : Nat) (delay : ℚ), 1 ≤ rem →
      (∀ i, i < rem → ∃ e, fn (callIdx + i) = Except.error e) →
      (∃ e, (retryAux fn rand rem callIdx delay).1 = RetryResult.failure e) ∧
      (retryAux fn rand rem callIdx delay).2.1 = rem := by
  intro rem
  induction rem with
  | zero => intro callIdx delay h; omega
  | succ r ih =>
      intro callIdx delay _ hall
      obtain ⟨e0, he0⟩ := hall 0 (Nat.succ_pos r)
      rw [Nat.add_zero] at he0
      by_cases hr : r = 0
      · subst hr
        rw [retryAux_one_err fn rand callIdx delay e0 he0]
        exact ⟨⟨e0, rfl⟩, rfl⟩
      · have h1 : 1 ≤ r := Nat.one_le_iff_ne_zero.mpr hr
        have hall' : ∀ i, i < r → ∃ e, fn (callIdx + 1 + i) = Except.error e := by
          intro i hi
          obtain ⟨e, he⟩ := hall (i + 1) (by omega)
          exact ⟨e, by rw [show callIdx + 1 + i = callIdx + (i + 1) from by omega]; exact he⟩
        have ihr := ih (callIdx + 1) (delay * 2) h1 hall'
        rw [retryAux_succ_err fn rand r callIdx delay e0 he0 hr]
        obtain ⟨⟨e, he⟩, hc⟩ := ihr
        exact ⟨⟨e, he⟩, by simpa using hc⟩

/-- C1: when every retry attempt of the remote existence check raises a
retryable failure, the coordinator falls back to the availability cache:
a cached id gives `Valid` (order created, HTTP 201), an uncached id gives
`Unavailable` (HTTP 503, distinct from the 400 of `Invalid`), and in both
cases exactly the 3 policy-bounded outbound calls were made, none after. -/
theorem fallback_decision_after_exhaustion (fetches : Nat → FetchOutcome)
    (rand : Nat → ℚ) (cache : KvMap UserData) (userId : String) (ord : Order)
    (h : ∀ i, i < 3 → ∃ e, validateUserHttp (fetches i) = Except.error e) :
    (kvHas cache userId = true →
        postOrder fetches rand cache userId (Except.ok ord) = PostResult.mk 201 3) ∧
    (kvHas cache userId = false →
        postOrder fetches rand cache userId (Except.ok ord) = PostResult.mk 503 3) ∧
    (503 : Nat) ≠ 400 := by
  have hp := retryAux_fail_prefix (fun i => validateUserHttp (fetches i)) rand 3 0 500
      (by norm_num) (by simpa using h)
  obtain ⟨⟨e, he⟩, hc⟩ := hp
  have he' : (retryWithBackoff (fun i => validateUserHttp (fetches i)) rand 3 500).1
      = RetryResult.failure e := he
  have hc' : (retryWithBackoff (fun i => validateUserHttp (fetches i)) rand 3 500).2.1
      = 3 := hc
  refine ⟨?_, ?_, by norm_num⟩
  · intro hhas
    rw [postOrder, he', hc']
    simp [postDecision, hhas]
  · intro hhas
    rw [postOrder, he', hc']
    simp [postDecision, hhas]

theorem fallback_decision_after_exhaustion_witness :
    (∀ i, i < 3 → ∃ e,
        validateUserHttp ((fun _ : Nat => FetchOutcome.response 503) i) = Except.error e) ∧
    (kvHas [("u1", UserData.mk "u1" [])] "u1" = true ∧
      postOrder (fun _ => FetchOutcome.response 503) (fun _ => 7)
        [("u1", UserData.mk "u1" [])] "u1"
        (Except.ok (Order.mk "o1" "u1" 10 "created" "[]" "t"))
          = PostResult.mk 201 3) := by
  have hh : ∀ i, i < 3 → ∃ e,
      validateUserHttp ((fun _ : Nat => FetchOutcome.response 503) i) = Except.error e := by
    intro i _
    exact ⟨VErr.unavailable 503, by simp [validateUserHttp, statusOk]⟩
  refine ⟨hh, by decide, ?_⟩
  exact (fallback_decision_after_exhaustion (fun _ => FetchOutcome.response 503)
    (fun _ => 7) [("u1", UserData.mk "u1" [])] "u1"
    (Order.mk "o1" "u1" 10 "created" "[]" "t") hh).1 (by decide)

/-- C3: a definitive non-success response (404) on the first attempt makes
the coordinator return `Invalid` (HTTP 400) immediately, with exactly one
outbound call: definitive rejections are never retried. -/
theorem definitive_rejection_not_retried (fetches : Nat → FetchOutcome)
    (rand : Nat → ℚ) (cache : KvMap UserData) (userId : String)
    (db : Except PrismaError Order) (h : fetches 0 = FetchOutcome.response 404) :
    postOrder fetches rand cache userId db = PostResult.mk 400 1 := by
  have hok : validateUserHttp (fetches 0) = Except.ok 404 := by
    rw [h]
    simp [validateUserHttp, statusOk]
  have htr : retryAux (fun i => validateUserHttp (fetches i)) rand 3 0 500
      = (RetryResult.success 404, 1, []) := by
    rw [show (3 : Nat) = 2 + 1 from rfl]
    exact retryAux_succ_ok _ rand 2 0 500 404 hok
  have htr' : retryWithBackoff (fun i => validateUserHttp (fetches i)) rand 3 500
      = (RetryResult.success 404, 1, []) := htr
  rw [postOrder, htr']
  simp [postDecision, statusOk]

theorem definitive_rejection_not_retried_witness :
    (fun _ : Nat => FetchOutcome.response 404) 0 = FetchOutcome.response 404 ∧
    postOrder (fun _ => FetchOutcome.response 404) (fun _ => 0) [] "u9"
      (Except.error (PrismaError.mk none)) = PostResult.mk 400 1 :=
  ⟨rfl,
   definitive_rejection_not_retried (fun _ => FetchOutcome.response 404) (fun _ => 0)
     [] "u9" (Except.error (PrismaError.mk none)) rfl⟩

/-- C2 counterexample: a 500-status response is NOT classified as a
retryable failure by the code — `validateUserHttp` only raises on
502/503/504 — so a permanently-500 dependency yields a definitive 400
after exactly one outbound call instead of being retried. -/
theorem http500_is_definitive_counterexample :
    validateUserHttp (FetchOutcome.response 500) = Except.ok 500 ∧
    postOrder (fun _ => FetchOutcome.response 500) (fun _ => 0) [] "u1"
      (Except.error (PrismaError.mk none)) = PostResult.mk 400 1 := by
  constructor
  · rfl
  · decide

/-- C2 amended: a network/timeout error, or a 502/503/504 response, is
classified as a retryable failure, and a raised (exhausted) failure of the
retried call is surfaced only after all 3 policy attempts; any other
non-success status — 500 included — is returned as a definitive result. -/
theorem retryable_classification (m : String) (s : Nat)
    (fn : Nat → Except VErr Nat) (rand : Nat → ℚ) (e : VErr) :
    validateUserHttp (FetchOutcome.netError m) = Except.error (VErr.network m) ∧
    (s = 502 ∨ s = 503 ∨ s = 504 →
        validateUserHttp (FetchOutcome.response s) = Except.error (VErr.unavailable s)) ∧
    (statusOk s = false → s ≠ 502 → s ≠ 503 → s ≠ 504 →
        validateUserHttp (FetchOutcome.response s) = Except.ok s) ∧
    ((retryWithBackoff fn rand 3 500).1 = RetryResult.failure e →
        (retryWithBackoff fn rand 3 500).2.1 = 3) := by
  refine ⟨rfl, ?_, ?_, ?_⟩
  · rintro (rfl | rfl | rfl) <;> rfl
  · intro hok h2 h3 h4
    have hcond : ¬ (statusOk s = false ∧ (s = 503 ∨ s = 504 ∨ s = 502)) := by
      rintro ⟨_, h | h | h⟩
      exacts [h3 h, h4 h, h2 h]
    simp [validateUserHttp, hcond]
  · intro h
    exact retryAux_failure_calls fn rand e 3 0 500 h

theorem retryable_classification_witness :
    validateUserHttp (FetchOutcome.netError "timeout") = Except.error (VErr.network "timeout") ∧
    validateUserHttp (FetchOutcome.response 503) = Except.error (VErr.unavailable 503) ∧
    validateUserHttp (FetchOutcome.response 500) = Except.ok 500 ∧
    ((retryWithBackoff (fun _ => (Except.error (VErr.network "x") : Except VErr Nat))
        (fun _ => 0) 3 500).1 = RetryResult.failure (VErr.network "x") →
      (retryWithBackoff (fun _ => (Except.error (VErr.network "x") : Except VErr Nat))
        (fun _ => 0) 3 500).2.1 = 3) := by
  have h := retryable_classification "timeout" 503
      (fun _ => (Except.error (VErr.network "x") : Except VErr Nat)) (fun _ => 0)
      (VErr.network "x")
  have h5 := retryable_classification "timeout" 500
      (fun _ => (Except.error (VErr.network "x") : Except VErr Nat)) (fun _ => 0)
      (VErr.network "x")
  exact ⟨h.1, h.2.1 (Or.inr (Or.inl rfl)),
    h5.2.2.1 (by decide) (by decide) (by decide) (by decide), h.2.2.2⟩

/-- Payload of a consumed broker message: either JSON.parse succeeds and
yields a user snapshot, or it raises (malformed content). -/
inductive Payload where
  | parsed (data : UserData)
  | malformed
deriving DecidableEq, Repr

/-- A delivered broker message: its (maybe unparsable) payload and its
routing key (`msg.fields.routingKey`). -/
structure Msg where
  payload : Payload
  routingKey : String
deriving DecidableEq, Repr

/-- The application-level acknowledgement decision of the consumer:
`ack`, or `nackDrop` for `nack(msg, false, false)` — rejected without
requeue. -/
inductive AckAction where
  | ack
  | nackDrop
deriving DecidableEq, Repr

/-- The consume callback of the orders service: parse the payload (a parse
failure is caught and the message is nacked without requeue); a message
whose routing key is the user-created or user-updated key overwrites the
cache entry for `data.id` with the snapshot and is acked; any other routing
key leaves the cache untouched and the message is acked. Returns the new
cache and the acknowledgement action. -/
def consumeMessage (rkCreated rkUpdated : String) (cache : KvMap UserData)
    (msg : Msg) : KvMap UserData × AckAction :=
  match msg.payload with
  | Payload.malformed => (cache, AckAction.nackDrop)
  | Payload.parsed data =>
      if msg.routingKey = rkCreated then
        (kvSet cache data.id data, AckAction.ack)
      else if msg.routingKey = rkUpdated then
        (kvSet cache data.id data, AckAction.ack)
      else
        (cache, AckAction.ack)

/-- C6: a consumed message whose payload fails to parse is permanently
rejected without requeue (`nack(msg, false, false)`) and the availability
cache is left exactly as it was. -/
theorem malformed_message_dropped_cache_unchanged (rkCreated rkUpdated : String)
    (cache : KvMap UserData) (msg : Msg) (h : msg.payload = Payload.malformed) :
    consumeMessage rkCreated rkUpdated cache msg = (cache, AckAction.nackDrop) := by
  obtain ⟨p, rk⟩ := msg
  cases h
  rfl

theorem malformed_message_dropped_cache_unchanged_witness :
    (Msg.mk Payload.malformed "user.created").payload = Payload.malformed ∧
    consumeMessage "user.created" "user.updated" [("u1", UserData.mk "u1" [])]
        (Msg.mk Payload.malformed "user.created")
      = ([("u1", UserData.mk "u1" [])], AckAction.nackDrop) :=
  ⟨rfl,
   malformed_message_dropped_cache_unchanged "user.created" "user.updated"
     [("u1", UserData.mk "u1" [])] (Msg.mk Payload.malformed "user.created") rfl⟩

/-- C7: applying the same recognized event twice to the cache yields exactly
the cache of applying it once (idempotent unconditional overwrite), and for
one id a created event and an updated event applied in either order leave
the cache holding the last-applied snapshot — a defined state, never an
error. -/
theorem cache_update_idempotent_and_reorderable (rkCreated rkUpdated : String)
    (cache : KvMap UserData) (msg : Msg) (id : String)
    (a₁ a₂ : List (String × String)) :
    (consumeMessage rkCreated rkUpdated
        (consumeMessage rkCreated rkUpdated cache msg).1 msg).1
      = (consumeMessage rkCreated rkUpdated cache msg).1 ∧
    kvGet (consumeMessage rkCreated rkUpdated
        (consumeMessage rkCreated rkUpdated cache
          (Msg.mk (Payload.parsed (UserData.mk id a₁)) rkCreated)).1
        (Msg.mk (Payload.parsed (UserData.mk id a₂)) rkUpdated)).1 id
      = some (UserData.mk id a₂) ∧
    kvGet (consumeMessage rkCreated rkUpdated
        (consumeMessage rkCreated rkUpdated cache
          (Msg.mk (Payload.parsed (UserData.mk id a₂)) rkUpdated)).1
        (Msg.mk (Payload.parsed (UserData.mk id a₁)) rkCreated)).1 id
      = some (UserData.mk id a₁) := by
  refine ⟨?_, ?_, ?_⟩
  · obtain ⟨p, rk⟩ := msg
    cases p with
    | malformed => rfl
    | parsed data =>
        by_cases h₁ : rk = rkCreated
        · simp [consumeMessage, h₁, kvSet_set_same]
        · by_cases h₂ : rk = rkUpdated
          · simp [consumeMessage, h₁, h₂, kvSet_set_same]
          · simp [consumeMessage, h₁, h₂]
  · by_cases h₂ : rkUpdated = rkCreated
    · simp [consumeMessage, h₂, kvSet_set_same, kvGet_set_self]
    · simp [consumeMessage, h₂, kvSet_set_same, kvGet_set_self]
  · by_cases h₁ : rkCreated = rkUpdated
    · simp [consumeMessage, h₁, kvSet_set_same, kvGet_set_self]
    · simp [consumeMessage, h₁, kvSet_set_same, kvGet_set_self]

/-- A row of the users table (`prisma.user`). -/
structure User where
  id : String
  name : String
  email : String
deriving DecidableEq, Repr

/-- Outcome of the fire-and-forget publish step after a local commit:
the channel may be absent (`amqp?.ch` null, publish skipped), the publish
may succeed, or it may raise — in which case the surrounding try/catch logs
and swallows the error. -/
inductive PublishOutcome where
  | noChannel
  | delivered
  | raises (msg : String)
deriving DecidableEq, Repr

/-- The `try { if (amqp?.ch) publish(...) } catch (err) { log }` block: it
never raises; its only observable effect is the log line. -/
def tryPublishLog (event : String) (pub : PublishOutcome) : List String :=
  match pub with
  | PublishOutcome.noChannel => []
  | PublishOutcome.delivered => ["published event: " ++ event]
  | PublishOutcome.raises m => ["publish error: " ++ m]

/-- Body of an HTTP response: the committed entity or an error message. -/
inductive RespBody where
  | userBody (u : User)
  | orderBody (o : Order)
  | errBody (m : String)
deriving DecidableEq, Repr

/-- An HTTP response: status code and JSON body. -/
structure HttpResponse where
  status : Nat
  body : RespBody
deriving DecidableEq, Repr

/-- `POST /` of the users service: missing (falsy) name or email is a 400;
otherwise the user is created (duplicate email, Prisma code P2002, is a
400; other Prisma failures a 500); on success the 201 response with the
committed user is sent and the user-created event is then published inside
its own try/catch. Returns the response and the publish log. -/
def postUserHandler (name email : String) (db : Except PrismaError User)
    (pub : PublishOutcome) : HttpResponse × List String :=
  if name = "" ∨ email = "" then
    (HttpResponse.mk 400 (RespBody.errBody "name and email are required"), [])
  else
    match db with
    | Except.ok user =>
        (HttpResponse.mk 201 (RespBody.userBody user), tryPublishLog "user.created" pub)
    | Except.error e =>
        if e.code = some "P2002" then
          (HttpResponse.mk 400 (RespBody.errBody "Email ja cadastrado"), [])
        else
          (HttpResponse.mk 500 (RespBody.errBody "Falha ao criar usuario"), [])

/-- `PATCH /:id` of the users service: update the user (a missing record,
Prisma code P2025, is a 404; other failures a 500); on success the
user-updated event is published inside its own try/catch and the 200
response with the committed user is sent. -/
def patchUserHandler (db : Except PrismaError User) (pub : PublishOutcome) :
    HttpResponse × List String :=
  match db with
  | Except.ok user =>
      (HttpResponse.mk 200 (RespBody.userBody user), tryPublishLog "user.updated" pub)
  | Except.error e =>
      if e.code = some "P2025" then
        (HttpResponse.mk 404 (RespBody.errBody "user not found"), [])
      else
        (HttpResponse.mk 500 (RespBody.errBody "Falha ao atualizar usuario"), [])

/-- `PATCH /:id` of the orders service: set the order status to cancelled
(a missing record, Prisma code P2025, is a 404; other failures a 500); on
success the order-cancelled event is published inside its own try/catch and
the 200 response with the committed order is sent. -/
def patchOrderHandler (db : Except PrismaError Order) (pub : PublishOutcome) :
    HttpResponse × List String :=
  match db with
  | Except.ok order =>
      (HttpResponse.mk 200 (RespBody.orderBody order), tryPublishLog "order.cancelled" pub)
  | Except.error e =>
      if e.code = some "P2025" then
        (HttpResponse.mk 404 (RespBody.errBody "order not found"), [])
      else
        (HttpResponse.mk 500 (RespBody.errBody "Falha ao atualizar pedido"), [])

/-- C8: for user creation, user update and order cancellation alike, the
outcome of the post-commit publish step (skipped, delivered, or raising an
error that the try/catch swallows) never changes the HTTP response — status
and body are identical for any two publish outcomes. -/
theorem publish_failure_never_changes_response (name email : String)
    (dbUser dbUser₂ : Except PrismaError User) (dbOrder : Except PrismaError Order)
    (pub pub₂ : PublishOutcome) :
    (postUserHandler name email dbUser pub).1 = (postUserHandler name email dbUser pub₂).1 ∧
    (patchUserHandler dbUser₂ pub).1 = (patchUserHandler dbUser₂ pub₂).1 ∧
    (patchOrderHandler dbOrder pub).1 = (patchOrderHandler dbOrder pub₂).1 := by
  refine ⟨?_, ?_, ?_⟩
  · by_cases h : name = "" ∨ email = ""
    · simp [postUserHandler, h]
    · cases dbUser with
      | ok u => simp [postUserHandler, h]
      | error e => simp [postUserHandler, h]
  · cases dbUser₂ with
    | ok u => rfl
    | error e => rfl
  · cases dbOrder with
    | ok o => rfl
    | error e => rfl

/-- The operations the orders service performs on its order rows:
`POST /` creates a row (with a fresh generated id) and `PATCH /:id`
cancels one. -/
inductive OrderOp where
  | createOrder (id userId : String) (total : ℚ) (itemsJson createdAt : String)
  | cancelOrder (id : String)
deriving DecidableEq, Repr

/-- One operation against the orders table, returning the new table and the
HTTP status of the handler: `create` inserts a row with status `"created"`
(an id collision violates the unique constraint, caught as a 500);
`cancel` is `prisma.order.update` setting status to `"cancelled"`, a 404
when the row is absent (Prisma P2025). -/
def applyOrderOp (store : KvMap Order) (op : OrderOp) : KvMap Order × Nat :=
  match op with
  | OrderOp.createOrder id userId total itemsJson createdAt =>
      match kvGet store id with
      | some _ => (store, 500)
      | none =>
          (kvSet store id (Order.mk id userId total "created" itemsJson createdAt), 201)
  | OrderOp.cancelOrder id =>
      match kvGet store id with
      | none => (store, 404)
      | some o =>
          (kvSet store id
            (Order.mk o.id o.userId o.total "cancelled" o.itemsJson o.createdAt), 200)

/-- Run a sequence of operations against the orders table. -/
def runOrderOps (store : KvMap Order) (ops : List OrderOp) : KvMap Order :=
  ops.foldl (fun s op => (applyOrderOp s op).1) store

theorem cancelled_preserved_step (store : KvMap Order) (op : OrderOp) (id : String)
    (h : (kvGet store id).map Order.status = some "cancelled") :
    (kvGet (applyOrderOp store op).1 id).map Order.status = some "cancelled" := by
  obtain ⟨o, ho, hst⟩ : ∃ o, kvGet store id = some o ∧ o.status = "cancelled" := by
    cases hg : kvGet store id with
    | none => rw [hg] at h; simp at h
    | some o => rw [hg] at h; simp at h; exact ⟨o, rfl, h⟩
  cases op with
  | createOrder id' userId total itemsJson createdAt =>
      cases hg' : kvGet store id' with
      | some o' => simpa [applyOrderOp, hg', ho] using hst
      | none =>
          by_cases hid : id' = id
          · subst hid
            rw [ho] at hg'
            exact absurd hg' (by simp)
          · simp only [applyOrderOp, hg']
            rw [kvGet_set_ne store id' id _ hid, ho]
            simpa using hst
  | cancelOrder id' =>
      cases hg' : kvGet store id' with
      | none => simpa [applyOrderOp, hg', ho] using hst
      | some o' =>
          by_cases hid : id' = id
          · subst hid
            simp [applyOrderOp, hg', kvGet_set_self]
          · simp only [applyOrderOp, hg']
            rw [kvGet_set_ne store id' id _ hid, ho]
            simpa using hst

/-- C9: an order is created with status `"created"`; cancelling sets the
status to `"cancelled"`; and from then on no sequence of further create or
cancel operations ever changes a cancelled order's status back — the
transition is one-way. -/
theorem order_status_one_way (store : KvMap Order) (ops : List OrderOp) (id : String) :
    (∀ userId total itemsJson createdAt, kvGet store id = none →
        (kvGet (applyOrderOp store
            (OrderOp.createOrder id userId total itemsJson createdAt)).1 id).map Order.status
          = some "created") ∧
    (∀ o, kvGet store id = some o →
        (kvGet (applyOrderOp store (OrderOp.cancelOrder id)).1 id).map Order.status
          = some "cancelled") ∧
    ((kvGet store id).map Order.status = some "cancelled" →
        (kvGet (runOrderOps store ops) id).map Order.status = some "cancelled") := by
  refine ⟨?_, ?_, ?_⟩
  · intro userId total itemsJson createdAt hnone
    simp [applyOrderOp, hnone, kvGet_set_self]
  · intro o hsome
    simp [applyOrderOp, hsome, kvGet_set_self]
  · rw [runOrderOps]
    induction ops generalizing store with
    | nil => intro h; simpa using h
    | cons op rest ih =>
        intro h
        exact ih ((applyOrderOp store op).1) (cancelled_preserved_step store op id h)

theorem order_status_one_way_witness :
    (kvGet ([] : KvMap Order) "o1" = none ∧
      (kvGet (applyOrderOp []
          (OrderOp.createOrder "o1" "u1" 10 "[]" "t")).1 "o1").map Order.status
        = some "created") ∧
    ((kvGet [("o1", Order.mk "o1" "u1" 10 "cancelled" "[]" "t")] "o1"
        = some (Order.mk "o1" "u1" 10 "cancelled" "[]" "t")) ∧
      (kvGet (applyOrderOp [("o1", Order.mk "o1" "u1" 10 "cancelled" "[]" "t")]
          (OrderOp.cancelOrder "o1")).1 "o1").map Order.status = some "cancelled") ∧
    ((kvGet [("o1", Order.mk "o1" "u1" 10 "cancelled" "[]" "t")] "o1").map Order.status
        = some "cancelled" ∧
      (kvGet (runOrderOps [("o1", Order.mk "o1" "u1" 10 "cancelled" "[]" "t")]
          [OrderOp.createOrder "o1" "u2" 5 "[]" "t", OrderOp.cancelOrder "o1"]) "o1").map
            Order.status = some "cancelled") :=
  ⟨⟨by decide,
    (order_status_one_way [] [] "o1").1 "u1" 10 "[]" "t" (by decide)⟩,
   ⟨by decide,
    (order_status_one_way [("o1", Order.mk "o1" "u1" 10 "cancelled" "[]" "t")] [] "o1").2.1
      (Order.mk "o1" "u1" 10 "cancelled" "[]" "t") (by decide)⟩,
   ⟨by decide,
    (order_status_one_way [("o1", Order.mk "o1" "u1" 10 "cancelled" "[]" "t")]
        [OrderOp.createOrder "o1" "u2" 5 "[]" "t", OrderOp.cancelOrder "o1"] "o1").2.2
      (by decide)⟩⟩
